import Mathlib

/-!
# rt1020-evk-make-freertos-builtin: the network task, its HTTP handler and `mg_random`

A shallow embedding of `examples/nxp/rt1020-evk-make-freertos-builtin/main.c`:

* `mg_random`   : the loop that fills a buffer from the on-board RNG, with `size_t` arithmetic
                  taken modulo `2 ^ w`;
* `timer_fn`    : the stats timer callback (one log line, the interface is only read);
* `fn`          : the HTTP event handler (two routes and a default);
* `server`      : the network task, as the trace of library calls it makes.

The Mongoose library itself (`mongoose.h`, `mongoose.c`) and the HAL (`hal.h`) are not part of
the example's source file; what the example uses of them is modelled below and marked as such.
-/

namespace Rt1020

/-! ## Data model -/

/-- Modelled from the spec: the interface state, `enum {Down, Up, AddressRequested, Ready}`
(the `MG_TCPIP_STATE_*` constants of `mongoose.h`). The order is the one `timer_fn` relies on
when it indexes `names[] = {"down", "up", "req", "ready"}` with `ifp->state`. -/
inductive mg_tcpip_state where
  | down
  | up
  | req
  | ready
  deriving DecidableEq, Repr

/-- The ordinal of a state, i.e. the integer stored in `ifp->state`. -/
def mg_tcpip_state.toNat : mg_tcpip_state → Nat
  | .down => 0
  | .up => 1
  | .req => 2
  | .ready => 3

/-- Modelled from the spec: the fields of `struct mg_tcpip_if` (declared in `mongoose.h`) that the
example reads: hardware address, ip/mask/gateway, state and the four `uint32_t` counters. -/
structure mg_tcpip_if where
  mac : List Nat
  ip : Nat
  mask : Nat
  gw : Nat
  state : mg_tcpip_state
  nrecv : Nat
  nsent : Nat
  ndrop : Nat
  nerr : Nat
  deriving DecidableEq, Repr

/-- Modelled from the spec: a parsed HTTP request (`struct mg_http_message`). Only `uri`, the
path, is looked at by the handler. -/
structure mg_http_message where
  method : String
  uri : String
  query : String
  proto : String
  headers : List (String × String)
  body : String
  deriving DecidableEq, Repr

/-- One response queued by `mg_http_reply`: status code, extra headers, body. -/
structure mg_reply where
  status : Nat
  headers : String
  body : String
  deriving DecidableEq, Repr

/-- Modelled from the spec: the part of `struct mg_connection` the handler touches: `fn_data`
(the interface the listener was attached with) and the responses written to the connection. -/
structure mg_connection where
  fn_data : mg_tcpip_if
  send : List mg_reply
  deriving DecidableEq, Repr

/-! ## Library formatting (`mg_xprintf` family) -/

/-- A variadic argument as the example passes it to the formatter. -/
inductive mg_arg where
  | u (v : Nat)
  | s (str : String)
  | esc (str : String)
  | ip4 (addr : Nat)
  deriving DecidableEq, Repr

/-- Byte `k` of the object representation of a `uint32_t` on the little-endian Cortex-M7. -/
def byte_of (r k : Nat) : Nat := r / 256 ^ k % 256

/-- Modelled from the spec: JSON string escaping done by `mg_print_esc` (the `MG_ESC` argument
of `%m`): the quote and the backslash get a backslash in front, the five control characters with
a short form are written in that form, every other character is copied. -/
def mg_print_esc : List Char → List Char
  | [] => []
  | c :: cs =>
    (if c = Char.ofNat 34 then [Char.ofNat 92, Char.ofNat 34]
     else if c = Char.ofNat 92 then [Char.ofNat 92, Char.ofNat 92]
     else if c = Char.ofNat 8 then [Char.ofNat 92, 'b']
     else if c = Char.ofNat 12 then [Char.ofNat 92, 'f']
     else if c = Char.ofNat 10 then [Char.ofNat 92, 'n']
     else if c = Char.ofNat 13 then [Char.ofNat 92, 'r']
     else if c = Char.ofNat 9 then [Char.ofNat 92, 't']
     else [c]) ++ mg_print_esc cs

/-- Modelled from the spec: `mg_print_ip4`, the dotted quad of the four bytes of an address in
memory order. -/
def mg_print_ip4 (addr : Nat) : List Char :=
  (Nat.repr (byte_of addr 0)).toList ++ '.' :: (Nat.repr (byte_of addr 1)).toList ++
    '.' :: (Nat.repr (byte_of addr 2)).toList ++ '.' :: (Nat.repr (byte_of addr 3)).toList

/-- Modelled from the spec: one conversion of the formatter. `%u` is the unsigned decimal
rendering, `%s` copies a string, `%m` with `MG_ESC` writes the escaped string between double
quotes, `%M` with `mg_print_ip4` writes a dotted quad. -/
def mg_conv : Char → mg_arg → List Char
  | 'u', .u v => (Nat.repr v).toList
  | 's', .s str => str.toList
  | 'm', .esc str => Char.ofNat 34 :: mg_print_esc str.toList ++ [Char.ofNat 34]
  | 'M', .ip4 addr => mg_print_ip4 addr
  | _, _ => []

/-- Modelled from the spec: the formatter `mg_vxprintf` on the conversions the example uses:
a `%` consumes the next format character and the next argument, any other character is copied. -/
def mg_vxprintf : List Char → List mg_arg → List Char
  | [], _ => []
  | [c], _ => [c]
  | c :: d :: fmt, ap =>
    if c = '%' then
      match ap with
      | [] => mg_vxprintf fmt []
      | a :: rest => mg_conv d a ++ mg_vxprintf fmt rest
    else c :: mg_vxprintf (d :: fmt) ap

/-- Formatter on strings. -/
def mg_xprintf (fmt : String) (ap : List mg_arg) : String :=
  String.mk (mg_vxprintf fmt.toList ap)

/-- Modelled from the spec: `mg_http_match_uri(hm, glob)` for a pattern without wildcards, which
is what the example passes: the request path matches when it is exactly the pattern. -/
def mg_http_match_uri (hm : mg_http_message) (glob : String) : Bool :=
  hm.uri == glob

/-- Modelled from the spec: `mg_http_reply(c, code, headers, fmt, ...)` formats the body and
writes one response to the connection; nothing else of the connection changes. -/
def mg_http_reply (c : mg_connection) (code : Nat) (headers : String) (fmt : String)
    (ap : List mg_arg) : mg_connection :=
  { c with send := c.send ++ [{ status := code, headers := headers, body := mg_xprintf fmt ap }] }

/-! ## `fn`: the HTTP event handler (main.c, lines 24-45) -/

/-- The handler `fn(c, ev, ev_data)`. `MG_EV_HTTP_MSG` is the event code of `mongoose.h`, taken as
a parameter; `hm` is what `ev_data` points to. The result is the connection after the call. -/
def fn (MG_EV_HTTP_MSG : Int) (c : mg_connection) (ev : Int) (hm : mg_http_message) :
    mg_connection :=
  let ifp := c.fn_data
  if ev = MG_EV_HTTP_MSG then
    if mg_http_match_uri hm "/api/hello" then
      mg_http_reply c 200 "" "\x7b%m:%u,%m:%u,%m:%u,%m:%u,%m:%u\x7d\n"
        [.esc "eth", .u ifp.state.toNat, .esc "frames_received", .u ifp.nrecv,
         .esc "frames_sent", .u ifp.nsent, .esc "frames_dropped", .u ifp.ndrop,
         .esc "interface_errors", .u ifp.nerr]
    else if mg_http_match_uri hm "/" then
      mg_http_reply c 200 "" "%s"
        [.s ("<html><head><link rel='icon' href='data:;base64,='></head><body>" ++
             "<h1>Welcome to Mongoose</h1>" ++
             "See <a href=/api/hello>/api/hello</a> for REST example" ++
             "</body></html>")]
    else
      mg_http_reply c 404 "" "Not Found\n" []
  else c

/-! ## `timer_fn`: the stats timer callback (main.c, lines 16-22) -/

/-- Modelled from the spec: `MG_INFO((fmt, ...))` emits one formatted line to the log. -/
def MG_INFO (log : List String) (fmt : String) (ap : List mg_arg) : List String :=
  log ++ [mg_xprintf fmt ap]

/-- The callback `timer_fn(arg)` with `arg` the interface: the interface and the log after the
call. -/
def timer_fn (ifp : mg_tcpip_if) (log : List String) : mg_tcpip_if × List String :=
  let names := ["down", "up", "req", "ready"]
  (ifp, MG_INFO log "Ethernet: %s, IP: %M, rx:%u, tx:%u, dr:%u, er:%u"
    [.s (names.getD ifp.state.toNat ""), .ip4 ifp.ip, .u ifp.nrecv, .u ifp.nsent,
     .u ifp.ndrop, .u ifp.nerr])

/-! ## `server`: the network task (main.c, lines 47-76) -/

/-- The result of running a loop with a bound on the iterations observed: the loop has
`returned` in state `s`, or it is still `running` in state `s` when the bound is reached (its
condition holds in `s`). -/
inductive run (σ : Type) where
  | returned (s : σ)
  | running (s : σ)

/-- LED blinking period in millis, `#define BLINK_PERIOD_MS 1000`. -/
def BLINK_PERIOD_MS : Nat := 1000

/-- The calls `server` makes, in the order of the source text. `mg_http_listen` carries the
interface value `&mif` points to at the moment of the call. -/
inductive lib_call where
  | mg_mgr_init
  | mg_log_set
  | ethernet_init
  | mg_tcpip_init
  | mg_timer_add (period_ms : Nat)
  | MG_INFO (fmt : String)
  | mg_mgr_poll (ms : Nat)
  | mg_http_listen (url : String) (fn_data : mg_tcpip_if)
  deriving DecidableEq, Repr

/-- The state of the network task: how many times `mg_mgr_poll` has been called and the calls
made so far. -/
structure server_state where
  polls : Nat
  trace : List lib_call
  deriving DecidableEq, Repr

/-- A library call that is not a poll is appended to the trace. -/
def call (cl : lib_call) (s : server_state) : server_state :=
  { s with trace := s.trace ++ [cl] }

/-- The call `mg_mgr_poll(&mgr, ms)`: a terminating step, after which the interface is the next
value of the sequence `mif`. -/
def mg_mgr_poll (ms : Nat) (s : server_state) : server_state :=
  { polls := s.polls + 1, trace := s.trace ++ [.mg_mgr_poll ms] }

/-- The readiness loop `while (mif.state != MG_TCPIP_STATE_READY) mg_mgr_poll(&mgr, 0);`.
`mif k` is the interface after `k` polls; `fuel` bounds the polls observed. -/
def readiness_loop (mif : Nat → mg_tcpip_if) : Nat → server_state → run server_state
  | 0, s => if (mif s.polls).state ≠ .ready then .running s else .returned s
  | fuel + 1, s =>
    if (mif s.polls).state ≠ .ready then readiness_loop mif fuel (mg_mgr_poll 0 s)
    else .returned s

/-- The event loop `for (;;) mg_mgr_poll(&mgr, 1);` never returns: the state after `fuel`
polls. -/
def event_loop : Nat → server_state → server_state
  | 0, s => s
  | fuel + 1, s => event_loop fuel (mg_mgr_poll 1 s)

/-- The statements of `server` before the readiness loop (lines 48-65). -/
def server_start : server_state :=
  let s : server_state := { polls := 0, trace := [] }
  let s := call .mg_mgr_init s
  let s := call .mg_log_set s
  let s := call .ethernet_init s
  let s := call .mg_tcpip_init s
  let s := call (.mg_timer_add BLINK_PERIOD_MS) s
  call (.MG_INFO "MAC: %M. Waiting for IP...") s

/-- The task `server`, observed until it has polled `fuel` times. `mif 0` is the interface as
`mg_tcpip_init` leaves it, `mif k` the interface after the `k`-th `mg_mgr_poll`. -/
def server (mif : Nat → mg_tcpip_if) (fuel : Nat) : server_state :=
  match readiness_loop mif fuel server_start with
  | .running s => s
  | .returned s =>
    let s := call (.MG_INFO "Initialising application...") s
    let s := call (.mg_http_listen "http://0.0.0.0:80" (mif s.polls)) s
    let s := call (.MG_INFO "Starting event loop") s
    event_loop (fuel - s.polls) s

/-! ## `mg_random` (main.c, lines 9-14) -/

/-- The state of the loop of `mg_random`: the counter `n`, the memory at `buf` (offset to
byte), the number of `rng_read` calls made and the `memcpy` calls made (offset from `buf`,
count). -/
structure random_state where
  n : Nat
  mem : Nat → Nat
  calls : Nat
  writes : List (Nat × Nat)

/-- The call `memcpy(buf + dst, src, cnt)`: the `cnt` bytes from offset `dst` on are replaced
by the first `cnt` bytes of the source object. -/
def memcpy (mem : Nat → Nat) (dst : Nat) (src : Nat → Nat) (cnt : Nat) : Nat → Nat :=
  fun a => if dst ≤ a ∧ a < dst + cnt then src (a - dst) else mem a

/-- One iteration of the loop of `mg_random`, increment included. `w` is the width of `size_t`,
`rng k` the word the `k`-th call of `rng_read` returns (counting from 0), `sizeof(uint32_t)`
is 4. -/
def mg_random_body (w : Nat) (rng : Nat → Nat) (len : Nat) (s : random_state) : random_state :=
  let r := rng s.calls
  let cnt := if (s.n + 4) % 2 ^ w > len then (len + 2 ^ w - s.n) % 2 ^ w else 4
  { n := (s.n + 4) % 2 ^ w
    mem := memcpy s.mem s.n (byte_of r) cnt
    calls := s.calls + 1
    writes := s.writes ++ [(s.n, cnt)] }

/-- The loop `for (...; n < len; n += sizeof(uint32_t))`, observed for at most `fuel`
iterations. -/
def mg_random_loop (w : Nat) (rng : Nat → Nat) (len : Nat) : Nat → random_state → run random_state
  | 0, s => if s.n < len then .running s else .returned s
  | fuel + 1, s =>
    if s.n < len then mg_random_loop w rng len fuel (mg_random_body w rng len s)
    else .returned s

/-- The call `mg_random(buf, len)` on the memory `mem` at `buf`, starting at `n = 0`. -/
def mg_random (w : Nat) (rng : Nat → Nat) (mem : Nat → Nat) (len fuel : Nat) : run random_state :=
  mg_random_loop w rng len fuel { n := 0, mem := mem, calls := 0, writes := [] }

/-! ## JSON text, for stating what the `/api/hello` body is -/

/-- Insignificant whitespace of a JSON text (RFC 8259): space, tab, line feed, carriage
return. -/
def json_ws (c : Char) : Bool :=
  c = ' ' || c = Char.ofNat 9 || c = Char.ofNat 10 || c = Char.ofNat 13

/-- A JSON text without the whitespace around its value. -/
def json_strip (s : List Char) : List Char :=
  ((s.dropWhile json_ws).reverse.dropWhile json_ws).reverse

/-- One member of an object: the key between double quotes, a colon, the unsigned decimal
rendering of the value. -/
def json_member (kv : String × Nat) : String :=
  "\"" ++ kv.1 ++ "\":" ++ Nat.repr kv.2

/-- The members of an object in order, separated by commas. -/
def json_members : List (String × Nat) → String
  | [] => ""
  | [kv] => json_member kv
  | kv :: rest => json_member kv ++ "," ++ json_members rest

/-- The object with exactly the given members, in the given order. -/
def json_object (ms : List (String × Nat)) : String :=
  "\x7b" ++ json_members ms ++ "\x7d"

/-- The text `body` is the JSON object with exactly the members `ms` in that order: once the
whitespace around the value is removed it is `json_object ms`. -/
def is_json_object (ms : List (String × Nat)) (body : String) : Prop :=
  json_strip body.toList = (json_object ms).toList

instance (ms : List (String × Nat)) (body : String) : Decidable (is_json_object ms body) :=
  inferInstanceAs (Decidable (json_strip body.toList = (json_object ms).toList))

/-- The text the spec's table gives for the `/api/hello` body, from the opening to the closing
brace. -/
def api_hello_text (ifp : mg_tcpip_if) : String :=
  "\x7b\"eth\":" ++ Nat.repr ifp.state.toNat ++
    ",\"frames_received\":" ++ Nat.repr ifp.nrecv ++
    ",\"frames_sent\":" ++ Nat.repr ifp.nsent ++
    ",\"frames_dropped\":" ++ Nat.repr ifp.ndrop ++
    ",\"interface_errors\":" ++ Nat.repr ifp.nerr ++ "\x7d"

/-- The five members of the `/api/hello` object, in order. -/
def api_hello_members (ifp : mg_tcpip_if) : List (String × Nat) :=
  [("eth", ifp.state.toNat), ("frames_received", ifp.nrecv), ("frames_sent", ifp.nsent),
   ("frames_dropped", ifp.ndrop), ("interface_errors", ifp.nerr)]

/-- The fixed HTML welcome page, as one literal. -/
def welcome_page : String :=
  "<html><head><link rel='icon' href='data:;base64,='></head><body><h1>Welcome to Mongoose</h1>See <a href=/api/hello>/api/hello</a> for REST example</body></html>"

/-- The reply the routing table of the spec gives for a path and an interface value. -/
def route (uri : String) (ifp : mg_tcpip_if) : mg_reply :=
  if uri = "/api/hello" then
    { status := 200, headers := "", body := api_hello_text ifp ++ "\n" }
  else if uri = "/" then { status := 200, headers := "", body := welcome_page }
  else { status := 404, headers := "", body := "Not Found\n" }

/-! ## Concrete inputs used to exercise the theorems -/

/-- An interface that is Ready and has seen no traffic. -/
def ifp_ready : mg_tcpip_if :=
  { mac := [2, 0, 0, 0, 0, 1], ip := 0, mask := 0, gw := 0, state := .ready,
    nrecv := 0, nsent := 0, ndrop := 0, nerr := 0 }

/-- An interface that is still requesting an address, with traffic counted. -/
def ifp_req : mg_tcpip_if :=
  { mac := [2, 0, 0, 0, 0, 1], ip := 0, mask := 0, gw := 0, state := .req,
    nrecv := 12, nsent := 7, ndrop := 1, nerr := 4294967295 }

/-- A `GET` request for the path `uri`. -/
def get_request (uri : String) : mg_http_message :=
  { method := "GET", uri := uri, query := "", proto := "HTTP/1.1", headers := [], body := "" }

/-- A `POST` request for the path `uri`, with a header and a body. -/
def post_request (uri : String) : mg_http_message :=
  { method := "POST", uri := uri, query := "x=1", proto := "HTTP/1.1",
    headers := [("Content-Type", "text/plain")], body := "hello" }

/-- The RNG returns the words `0x04030201`, `0x08070605`, `0x08070605`, ... -/
def rng_example (k : Nat) : Nat :=
  if k = 0 then 67305985 else 134678021

/-- A memory where every byte is `0xff`. -/
def mem_example (_ : Nat) : Nat := 255

/-- The first `k` bytes at `buf` after a run of `mg_random`, with what the run did: `true` when
it returned. -/
def observed (k : Nat) : run random_state → Bool × Nat × List Nat × List (Nat × Nat)
  | .returned t => (true, t.calls, (List.range k).map t.mem, t.writes)
  | .running t => (false, t.calls, (List.range k).map t.mem, t.writes)

/-- The interface becomes Ready at the second poll: Down, Up, Ready, Ready, ... -/
def mif_ready_at_2 (k : Nat) : mg_tcpip_if :=
  { ifp_ready with state := if k = 0 then .down else if k = 1 then .up else .ready }

/-- The interface never gets past Up. -/
def mif_never_ready (_ : Nat) : mg_tcpip_if :=
  { ifp_ready with state := .up }

/-! ## The HTTP handler -/

/-- The formatted body of the `/api/hello` reply is the table's text followed by a line feed. -/
theorem api_hello_format (ifp : mg_tcpip_if) :
    mg_xprintf "\x7b%m:%u,%m:%u,%m:%u,%m:%u,%m:%u\x7d\n"
        [.esc "eth", .u ifp.state.toNat, .esc "frames_received", .u ifp.nrecv,
         .esc "frames_sent", .u ifp.nsent, .esc "frames_dropped", .u ifp.ndrop,
         .esc "interface_errors", .u ifp.nerr] = api_hello_text ifp ++ "\n" := by
  apply String.ext
  simp [mg_xprintf, mg_vxprintf, mg_conv, mg_print_esc, api_hello_text]

/-- The table's text followed by a line feed is the JSON object with the five members. -/
theorem api_hello_is_json (ifp : mg_tcpip_if) :
    is_json_object (api_hello_members ifp) (api_hello_text ifp ++ "\n") := by
  simp [is_json_object, json_strip, json_object, json_members, json_member, json_ws,
    api_hello_text, api_hello_members]

/-- What `fn` does on an HTTP message, case by case on the path. -/
theorem fn_http_msg (E : Int) (c : mg_connection) (hm : mg_http_message) :
    fn E c E hm = { c with send := c.send ++ [route hm.uri c.fn_data] } := by
  by_cases h1 : hm.uri = "/api/hello"
  · simp [fn, mg_http_match_uri, mg_http_reply, route, h1, api_hello_format]
  · by_cases h2 : hm.uri = "/"
    · have h3 : mg_xprintf "%s" [.s ("<html><head><link rel='icon' href='data:;base64,='></head><body>" ++
             "<h1>Welcome to Mongoose</h1>" ++
             "See <a href=/api/hello>/api/hello</a> for REST example" ++
             "</body></html>")] = welcome_page := by
        apply String.ext
        simp [mg_xprintf, mg_vxprintf, mg_conv, welcome_page]
      simp only [fn, mg_http_match_uri, mg_http_reply, route, h1, h2, h3]
      simp
    · have h3 : mg_xprintf "Not Found\n" [] = "Not Found\n" := by
        apply String.ext
        simp [mg_xprintf, mg_vxprintf]
      simp [fn, mg_http_match_uri, mg_http_reply, route, h1, h2, h3]

/-- C1: for every interface value and every HTTP message whose path is exactly `/api/hello`,
`fn` writes one reply with status 200 whose body is the JSON object with exactly the five
members `eth`, `frames_received`, `frames_sent`, `frames_dropped`, `interface_errors`, in that
order, valued with the decimal renderings of the state ordinal and of `nrecv`, `nsent`, `ndrop`,
`nerr` of the interface at dispatch; when the state is Ready and the counters are 0 the members
are `eth` = 3 (the Ready ordinal) and four times 0. -/
theorem fn_api_hello (E : Int) (c : mg_connection) (hm : mg_http_message)
    (huri : hm.uri = "/api/hello") :
    ∃ body : String,
      fn E c E hm = { c with send := c.send ++ [{ status := 200, headers := "", body := body }] } ∧
      is_json_object
        [("eth", c.fn_data.state.toNat), ("frames_received", c.fn_data.nrecv),
         ("frames_sent", c.fn_data.nsent), ("frames_dropped", c.fn_data.ndrop),
         ("interface_errors", c.fn_data.nerr)] body ∧
      (c.fn_data.state = .ready → c.fn_data.nrecv = 0 → c.fn_data.nsent = 0 →
        c.fn_data.ndrop = 0 → c.fn_data.nerr = 0 →
        mg_tcpip_state.ready.toNat = 3 ∧
        is_json_object
          [("eth", 3), ("frames_received", 0), ("frames_sent", 0), ("frames_dropped", 0),
           ("interface_errors", 0)] body) := by
  refine ⟨api_hello_text c.fn_data ++ "\n", ?_, api_hello_is_json c.fn_data, ?_⟩
  · rw [fn_http_msg, huri]
    simp [route]
  · intro hs hr ht hd he
    have h := api_hello_is_json c.fn_data
    simp only [api_hello_members, hs, hr, ht, hd, he] at h
    exact ⟨rfl, h⟩

/-- C1 at a concrete input: a `GET /api/hello` on a Ready interface without traffic. -/
theorem fn_api_hello_witness :
    (get_request "/api/hello").uri = "/api/hello" ∧
    ∃ body : String,
      fn 11 { fn_data := ifp_ready, send := [] } 11 (get_request "/api/hello") =
        { fn_data := ifp_ready, send := [] ++ [{ status := 200, headers := "", body := body }] } ∧
      is_json_object
        [("eth", ifp_ready.state.toNat), ("frames_received", ifp_ready.nrecv),
         ("frames_sent", ifp_ready.nsent), ("frames_dropped", ifp_ready.ndrop),
         ("interface_errors", ifp_ready.nerr)] body ∧
      (ifp_ready.state = .ready → ifp_ready.nrecv = 0 → ifp_ready.nsent = 0 →
        ifp_ready.ndrop = 0 → ifp_ready.nerr = 0 →
        mg_tcpip_state.ready.toNat = 3 ∧
        is_json_object
          [("eth", 3), ("frames_received", 0), ("frames_sent", 0), ("frames_dropped", 0),
           ("interface_errors", 0)] body) :=
  ⟨rfl, fn_api_hello 11 { fn_data := ifp_ready, send := [] } (get_request "/api/hello") rfl⟩

/-- C2: for every interface value and every HTTP message whose path is neither `/api/hello`
nor `/`, `fn` writes one reply with status 404 whose body is the 10 characters `Not Found`
and a line feed; the reply does not depend on the interface value. -/
theorem fn_not_found (E : Int) (c : mg_connection) (hm : mg_http_message)
    (hapi : hm.uri ≠ "/api/hello") (hroot : hm.uri ≠ "/") :
    fn E c E hm =
        { c with send := c.send ++ [{ status := 404, headers := "", body := "Not Found\n" }] } ∧
      "Not Found\n".toList = "Not Found".toList ++ [Char.ofNat 10] ∧
      "Not Found\n".length = 10 ∧
      ∀ ifp : mg_tcpip_if, (fn E { c with fn_data := ifp } E hm).send = (fn E c E hm).send := by
  refine ⟨?_, by decide, by decide, ?_⟩
  · rw [fn_http_msg]
    simp [route, hapi, hroot]
  · intro ifp
    rw [fn_http_msg, fn_http_msg]
    simp [route, hapi, hroot]

/-- C2 at a concrete input: a `GET /nonexistent` while the interface requests an address. -/
theorem fn_not_found_witness :
    (get_request "/nonexistent").uri ≠ "/api/hello" ∧ (get_request "/nonexistent").uri ≠ "/" ∧
    (fn 11 { fn_data := ifp_req, send := [] } 11 (get_request "/nonexistent") =
        { fn_data := ifp_req,
          send := [] ++ [{ status := 404, headers := "", body := "Not Found\n" }] } ∧
      "Not Found\n".toList = "Not Found".toList ++ [Char.ofNat 10] ∧
      "Not Found\n".length = 10 ∧
      ∀ ifp : mg_tcpip_if,
        (fn 11 { fn_data := ifp, send := [] } 11 (get_request "/nonexistent")).send =
          (fn 11 { fn_data := ifp_req, send := [] } 11 (get_request "/nonexistent")).send) :=
  ⟨by decide, by decide,
    fn_not_found 11 { fn_data := ifp_req, send := [] } (get_request "/nonexistent")
      (by decide) (by decide)⟩

/-- C3: for every interface value and every HTTP message whose path is exactly `/`, `fn`
writes one reply with status 200 whose body is, character for character, the fixed HTML welcome
page; the reply does not depend on the interface value. -/
theorem fn_index (E : Int) (c : mg_connection) (hm : mg_http_message) (hroot : hm.uri = "/") :
    fn E c E hm =
        { c with send := c.send ++ [{ status := 200, headers := "", body :=
            "<html><head><link rel='icon' href='data:;base64,='></head><body><h1>Welcome to Mongoose</h1>See <a href=/api/hello>/api/hello</a> for REST example</body></html>" }] } ∧
      ∀ ifp : mg_tcpip_if, (fn E { c with fn_data := ifp } E hm).send = (fn E c E hm).send := by
  refine ⟨?_, ?_⟩
  · rw [fn_http_msg, hroot]
    simp [route, welcome_page]
  · intro ifp
    rw [fn_http_msg, fn_http_msg, hroot]
    simp [route]

/-- C3 at a concrete input: a `GET /` while the interface requests an address. -/
theorem fn_index_witness :
    (get_request "/").uri = "/" ∧
    (fn 11 { fn_data := ifp_req, send := [] } 11 (get_request "/") =
        { fn_data := ifp_req, send := [] ++ [{ status := 200, headers := "", body :=
            "<html><head><link rel='icon' href='data:;base64,='></head><body><h1>Welcome to Mongoose</h1>See <a href=/api/hello>/api/hello</a> for REST example</body></html>" }] } ∧
      ∀ ifp : mg_tcpip_if,
        (fn 11 { fn_data := ifp, send := [] } 11 (get_request "/")).send =
          (fn 11 { fn_data := ifp_req, send := [] } 11 (get_request "/")).send) :=
  ⟨rfl, fn_index 11 { fn_data := ifp_req, send := [] } (get_request "/") rfl⟩

/-- C6: `fn` is a total function; on the event `MG_EV_HTTP_MSG` it writes exactly one reply,
on any other event it writes none and leaves the connection as it is; the status of the reply
is 200 or 404; the reply is a function of the path and the interface value alone, so two
messages with the same path get the same reply whatever their method, headers and body. -/
theorem fn_total :
    ∃ reply : String → mg_tcpip_if → mg_reply,
      ∀ (E : Int) (c : mg_connection) (ev : Int) (hm : mg_http_message),
        (ev = E → fn E c ev hm = { c with send := c.send ++ [reply hm.uri c.fn_data] }) ∧
        (ev ≠ E → fn E c ev hm = c) ∧
        ((reply hm.uri c.fn_data).status = 200 ∨ (reply hm.uri c.fn_data).status = 404) ∧
        (∀ hm2 : mg_http_message, hm2.uri = hm.uri → fn E c ev hm2 = fn E c ev hm) := by
  refine ⟨route, fun E c ev hm => ⟨?_, ?_, ?_, ?_⟩⟩
  · intro h
    rw [h, fn_http_msg]
  · intro h
    simp [fn, h]
  · unfold route
    split_ifs <;> simp
  · intro hm2 h
    by_cases he : ev = E
    · rw [he, fn_http_msg, fn_http_msg, h]
    · simp [fn, he]

/-- C7, as the spec states it, fails: for a Ready interface without traffic the body of the
`/api/hello` reply is not the text that ends at the closing brace; a line feed follows it. -/
theorem api_hello_body_not_bare :
    (fn 11 { fn_data := ifp_ready, send := [] } 11 (get_request "/api/hello")).send ≠
        [{ status := 200, headers := "", body :=
            "\x7b\"eth\":3,\"frames_received\":0,\"frames_sent\":0,\"frames_dropped\":0,\"interface_errors\":0\x7d" }] ∧
      api_hello_text ifp_ready =
        "\x7b\"eth\":3,\"frames_received\":0,\"frames_sent\":0,\"frames_dropped\":0,\"interface_errors\":0\x7d" ∧
      (fn 11 { fn_data := ifp_ready, send := [] } 11 (get_request "/api/hello")).send =
        [{ status := 200, headers := "", body :=
            "\x7b\"eth\":3,\"frames_received\":0,\"frames_sent\":0,\"frames_dropped\":0,\"interface_errors\":0\x7d\n" }] := by
  have ht : api_hello_text ifp_ready =
      "\x7b\"eth\":3,\"frames_received\":0,\"frames_sent\":0,\"frames_dropped\":0,\"interface_errors\":0\x7d" := by
    decide
  have hb : (fn 11 { fn_data := ifp_ready, send := [] } 11 (get_request "/api/hello")).send =
      [{ status := 200, headers := "", body :=
          "\x7b\"eth\":3,\"frames_received\":0,\"frames_sent\":0,\"frames_dropped\":0,\"interface_errors\":0\x7d\n" }] := by
    rw [fn_http_msg]
    simp only [route, get_request, if_true, ht, List.nil_append]
    decide
  refine ⟨?_, ht, hb⟩
  rw [hb]
  decide

/-- C7, amended: for every interface value the body of the reply to a request for `/api/hello`
is exactly the text `{"eth":S,"frames_received":R,"frames_sent":T,"frames_dropped":D,
"interface_errors":E}` with the decimal renderings of the state ordinal and the four counters,
followed by one line feed; nothing comes before the opening brace. -/
theorem fn_api_hello_body (E : Int) (c : mg_connection) (hm : mg_http_message)
    (huri : hm.uri = "/api/hello") :
    fn E c E hm = { c with send := c.send ++ [{ status := 200, headers := "", body :=
      ("\x7b\"eth\":" ++ Nat.repr c.fn_data.state.toNat ++
      ",\"frames_received\":" ++ Nat.repr c.fn_data.nrecv ++
      ",\"frames_sent\":" ++ Nat.repr c.fn_data.nsent ++
      ",\"frames_dropped\":" ++ Nat.repr c.fn_data.ndrop ++
      ",\"interface_errors\":" ++ Nat.repr c.fn_data.nerr ++ "\x7d" ++ "\n") }] } := by
  rw [fn_http_msg, huri]
  simp [route, api_hello_text]

/-- C7 amended, at a concrete input: a `POST /api/hello` while the interface requests an
address. -/
theorem fn_api_hello_body_witness :
    (post_request "/api/hello").uri = "/api/hello" ∧
    fn 11 { fn_data := ifp_req, send := [] } 11 (post_request "/api/hello") =
      { fn_data := ifp_req, send := [] ++ [{ status := 200, headers := "", body :=
        ("\x7b\"eth\":" ++ Nat.repr ifp_req.state.toNat ++
        ",\"frames_received\":" ++ Nat.repr ifp_req.nrecv ++
        ",\"frames_sent\":" ++ Nat.repr ifp_req.nsent ++
        ",\"frames_dropped\":" ++ Nat.repr ifp_req.ndrop ++
        ",\"interface_errors\":" ++ Nat.repr ifp_req.nerr ++ "\x7d" ++ "\n") }] } :=
  ⟨rfl, fn_api_hello_body 11 { fn_data := ifp_req, send := [] } (post_request "/api/hello") rfl⟩

/-- C9: the two observers only read the interface: after `fn` returns, for every event, message
and interface value, and after `timer_fn` returns, the interface (state, hardware address,
ip, mask, gateway and the counters `nrecv`, `nsent`, `ndrop`, `nerr`) is what it was before the
call. -/
theorem observers_read_only (E : Int) (c : mg_connection) (ev : Int) (hm : mg_http_message)
    (ifp : mg_tcpip_if) (log : List String) :
    (fn E c ev hm).fn_data = c.fn_data ∧ (timer_fn ifp log).1 = ifp ∧
      ((fn E c ev hm).fn_data.nrecv = c.fn_data.nrecv ∧
        (fn E c ev hm).fn_data.nsent = c.fn_data.nsent ∧
        (fn E c ev hm).fn_data.ndrop = c.fn_data.ndrop ∧
        (fn E c ev hm).fn_data.nerr = c.fn_data.nerr) ∧
      ((timer_fn ifp log).1.nrecv = ifp.nrecv ∧ (timer_fn ifp log).1.nsent = ifp.nsent ∧
        (timer_fn ifp log).1.ndrop = ifp.ndrop ∧ (timer_fn ifp log).1.nerr = ifp.nerr) := by
  have h : (fn E c ev hm).fn_data = c.fn_data := by
    by_cases he : ev = E
    · rw [he, fn_http_msg]
    · simp [fn, he]
  have ht : (timer_fn ifp log).1 = ifp := rfl
  refine ⟨h, ht, ?_, ?_⟩
  · rw [h]
    exact ⟨rfl, rfl, rfl, rfl⟩
  · rw [ht]
    exact ⟨rfl, rfl, rfl, rfl⟩

/-! ## The network task -/

/-- The readiness loop, from any state: either it returns at the first check that finds Ready,
after `k` polls, or all the `fuel + 1` checks observed found another state. -/
theorem readiness_loop_cases (mif : Nat → mg_tcpip_if) :
    ∀ (fuel : Nat) (s : server_state),
      (∃ k, k ≤ fuel ∧ (mif (s.polls + k)).state = .ready ∧
          (∀ j, j < k → (mif (s.polls + j)).state ≠ .ready) ∧
          readiness_loop mif fuel s = .returned
            { polls := s.polls + k,
              trace := s.trace ++ List.replicate k (lib_call.mg_mgr_poll 0) }) ∨
        ((∀ j, j ≤ fuel → (mif (s.polls + j)).state ≠ .ready) ∧
          readiness_loop mif fuel s = .running
            { polls := s.polls + fuel,
              trace := s.trace ++ List.replicate fuel (lib_call.mg_mgr_poll 0) }) := by
  intro fuel
  induction fuel with
  | zero =>
    intro s
    by_cases h : (mif s.polls).state = .ready
    · left
      exact ⟨0, le_refl 0, by simpa using h, by intro j hj; omega, by simp [readiness_loop, h]⟩
    · right
      refine ⟨?_, by simp [readiness_loop, h]⟩
      intro j hj
      have : j = 0 := by omega
      subst this
      simpa using h
  | succ fuel ih =>
    intro s
    by_cases h : (mif s.polls).state = .ready
    · left
      exact ⟨0, Nat.zero_le _, by simpa using h, by intro j hj; omega, by simp [readiness_loop, h]⟩
    · have hstep : readiness_loop mif (fuel + 1) s = readiness_loop mif fuel (mg_mgr_poll 0 s) := by
        simp [readiness_loop, h]
      rcases ih (mg_mgr_poll 0 s) with ⟨k, hk, hr, hfirst, hrun⟩ | ⟨hall, hrun⟩
      · left
        refine ⟨k + 1, by omega, ?_, ?_, ?_⟩
        · simpa [mg_mgr_poll, Nat.add_assoc, Nat.add_comm 1 k] using hr
        · intro j hj
          rcases Nat.eq_zero_or_pos j with h0 | hpos
          · subst h0
            simpa using h
          · have := hfirst (j - 1) (by omega)
            have e : (mg_mgr_poll 0 s).polls + (j - 1) = s.polls + j := by
              simp only [mg_mgr_poll]
              omega
            rwa [e] at this
        · rw [hstep, hrun]
          simp [mg_mgr_poll, List.replicate_succ, Nat.add_assoc, Nat.add_comm 1 k]
      · right
        refine ⟨?_, ?_⟩
        · intro j hj
          rcases Nat.eq_zero_or_pos j with h0 | hpos
          · subst h0
            simpa using h
          · have := hall (j - 1) (by omega)
            have e : (mg_mgr_poll 0 s).polls + (j - 1) = s.polls + j := by
              simp only [mg_mgr_poll]
              omega
            rwa [e] at this
        · rw [hstep, hrun]
          simp [mg_mgr_poll, List.replicate_succ, Nat.add_assoc, Nat.add_comm 1 fuel]

/-- The event loop only polls with timeout 1. -/
theorem event_loop_eq :
    ∀ (fuel : Nat) (s : server_state),
      event_loop fuel s =
        { polls := s.polls + fuel,
          trace := s.trace ++ List.replicate fuel (lib_call.mg_mgr_poll 1) } := by
  intro fuel
  induction fuel with
  | zero => intro s; simp [event_loop]
  | succ fuel ih =>
    intro s
    rw [event_loop, ih]
    simp [mg_mgr_poll, List.replicate_succ, Nat.add_assoc, Nat.add_comm 1 fuel]

/-- The calls of `server` before the readiness loop. -/
theorem server_start_eq :
    server_start =
      { polls := 0,
        trace := [.mg_mgr_init, .mg_log_set, .ethernet_init, .mg_tcpip_init, .mg_timer_add 1000,
          .MG_INFO "MAC: %M. Waiting for IP..."] } := by
  decide

/-- The whole trace of `server`: either the readiness loop returns at the first Ready check,
after `k` polls, and the listener is attached next, or the task is still in the readiness
loop. -/
theorem server_cases (mif : Nat → mg_tcpip_if) (fuel : Nat) :
    (∃ k, k ≤ fuel ∧ (mif k).state = .ready ∧ (∀ j, j < k → (mif j).state ≠ .ready) ∧
        readiness_loop mif fuel server_start = .returned
          { polls := k,
            trace := server_start.trace ++ List.replicate k (lib_call.mg_mgr_poll 0) } ∧
        (server mif fuel).trace =
          server_start.trace ++ List.replicate k (lib_call.mg_mgr_poll 0) ++
            [.MG_INFO "Initialising application...", .mg_http_listen "http://0.0.0.0:80" (mif k),
             .MG_INFO "Starting event loop"] ++
            List.replicate (fuel - k) (lib_call.mg_mgr_poll 1)) ∨
      ((∀ j, j ≤ fuel → (mif j).state ≠ .ready) ∧
        readiness_loop mif fuel server_start = .running
          { polls := fuel,
            trace := server_start.trace ++ List.replicate fuel (lib_call.mg_mgr_poll 0) } ∧
        (server mif fuel).trace =
          server_start.trace ++ List.replicate fuel (lib_call.mg_mgr_poll 0)) := by
  have hp : server_start.polls = 0 := by decide
  rcases readiness_loop_cases mif fuel server_start with ⟨k, hk, hr, hfirst, hrun⟩ | ⟨hall, hrun⟩
  · left
    rw [hp] at hrun hr
    simp only [Nat.zero_add] at hrun hr
    refine ⟨k, hk, hr, ?_, hrun, ?_⟩
    · intro j hj
      have := hfirst j hj
      rwa [hp, Nat.zero_add] at this
    · simp only [server, hrun, event_loop_eq, call]
      simp
  · right
    rw [hp] at hrun
    simp only [Nat.zero_add] at hrun
    refine ⟨?_, hrun, ?_⟩
    · intro j hj
      have := hall j hj
      rwa [hp, Nat.zero_add] at this
    · simp only [server, hrun]

/-- C4: with every `mg_mgr_poll(&mgr, 0)` a terminating step after which the interface is the
next value of an arbitrary sequence `mif`: the readiness loop of `server` returns if and only if
some check finds the state Ready; when it returns it does so at the first such check, not while
the state is Down, Up or AddressRequested; any bound on the polls that reaches a Ready check
sees the loop return; `mg_http_listen` is called exactly when the loop has returned, and the
interface it is given is Ready. -/
theorem readiness_gate (mif : Nat → mg_tcpip_if) :
    ((∃ fuel s, readiness_loop mif fuel server_start = .returned s) ↔
        ∃ k, (mif k).state = .ready) ∧
      (∀ fuel s, readiness_loop mif fuel server_start = .returned s →
        (mif s.polls).state = .ready ∧ (∀ j, j < s.polls → (mif j).state ≠ .ready) ∧
          (mif s.polls).state ≠ .down ∧ (mif s.polls).state ≠ .up ∧
          (mif s.polls).state ≠ .req) ∧
      (∀ k, (mif k).state = .ready → ∀ fuel, k ≤ fuel →
        ∃ s, readiness_loop mif fuel server_start = .returned s ∧ s.polls ≤ k) ∧
      (∀ fuel s, readiness_loop mif fuel server_start = .running s →
        s.polls = fuel ∧ ∀ j, j ≤ fuel → (mif j).state ≠ .ready) ∧
      (∀ fuel url d, lib_call.mg_http_listen url d ∈ (server mif fuel).trace →
        d.state = .ready ∧
          ∃ s, readiness_loop mif fuel server_start = .returned s ∧ d = mif s.polls) ∧
      (∀ fuel, (∃ url d, lib_call.mg_http_listen url d ∈ (server mif fuel).trace) ↔
        ∃ s, readiness_loop mif fuel server_start = .returned s) := by
  have hret : ∀ fuel s, readiness_loop mif fuel server_start = .returned s →
      (mif s.polls).state = .ready ∧ (∀ j, j < s.polls → (mif j).state ≠ .ready) := by
    intro fuel s hs
    rcases server_cases mif fuel with ⟨k, _, hr, hfirst, hrun, _⟩ | ⟨_, hrun, _⟩
    · rw [hrun] at hs
      cases hs
      exact ⟨hr, hfirst⟩
    · rw [hrun] at hs
      cases hs
  have hexit : ∀ k, (mif k).state = .ready → ∀ fuel, k ≤ fuel →
      ∃ s, readiness_loop mif fuel server_start = .returned s ∧ s.polls ≤ k := by
    intro k hk fuel hle
    rcases server_cases mif fuel with ⟨k2, _, _, hfirst, hrun, _⟩ | ⟨hall, _, _⟩
    · refine ⟨_, hrun, ?_⟩
      by_contra hlt
      exact hfirst k (by simpa using hlt) hk
    · exact absurd hk (hall k hle)
  refine ⟨⟨?_, ?_⟩, ?_, hexit, ?_, ?_, ?_⟩
  · rintro ⟨fuel, s, hs⟩
    exact ⟨s.polls, (hret fuel s hs).1⟩
  · rintro ⟨k, hk⟩
    obtain ⟨s, hs, _⟩ := hexit k hk k (le_refl k)
    exact ⟨k, s, hs⟩
  · intro fuel s hs
    obtain ⟨h1, h2⟩ := hret fuel s hs
    refine ⟨h1, h2, ?_, ?_, ?_⟩ <;> rw [h1] <;> decide
  · intro fuel s hs
    rcases server_cases mif fuel with ⟨k, _, _, _, hrun, _⟩ | ⟨hall, hrun, _⟩
    · rw [hrun] at hs
      cases hs
    · rw [hrun] at hs
      cases hs
      exact ⟨rfl, hall⟩
  · intro fuel url d hmem
    rcases server_cases mif fuel with ⟨k, _, hr, _, hrun, htr⟩ | ⟨_, _, htr⟩
    · rw [htr, server_start_eq] at hmem
      simp [List.mem_replicate] at hmem
      obtain ⟨_, hd⟩ := hmem
      subst hd
      exact ⟨hr, _, hrun, rfl⟩
    · rw [htr, server_start_eq] at hmem
      simp [List.mem_replicate] at hmem
  · intro fuel
    constructor
    · rintro ⟨url, d, hmem⟩
      rcases server_cases mif fuel with ⟨k, _, _, _, hrun, _⟩ | ⟨_, _, htr⟩
      · exact ⟨_, hrun⟩
      · rw [htr, server_start_eq] at hmem
        simp [List.mem_replicate] at hmem
    · rintro ⟨s, hs⟩
      rcases server_cases mif fuel with ⟨k, _, _, _, _, htr⟩ | ⟨_, hrun, _⟩
      · refine ⟨"http://0.0.0.0:80", mif k, ?_⟩
        rw [htr]
        simp
      · rw [hrun] at hs
        cases hs

/-- C8, as the spec states it, fails: when the interface is Ready at the second poll, the
calls of `server` up to the first poll of the event loop are the ones listed, and the timer
registration (position 4) comes before the first poll of the readiness loop (position 6) and
before the listener attachment (position 9), not after them. -/
theorem timer_registered_before_listen :
    (server mif_ready_at_2 3).trace =
        [.mg_mgr_init, .mg_log_set, .ethernet_init, .mg_tcpip_init, .mg_timer_add 1000,
         .MG_INFO "MAC: %M. Waiting for IP...", .mg_mgr_poll 0, .mg_mgr_poll 0,
         .MG_INFO "Initialising application...",
         .mg_http_listen "http://0.0.0.0:80" (mif_ready_at_2 2),
         .MG_INFO "Starting event loop", .mg_mgr_poll 1] ∧
      (server mif_ready_at_2 3).trace.indexOf (.mg_timer_add 1000) = 4 ∧
      (server mif_ready_at_2 3).trace.indexOf (.mg_mgr_poll 0) = 6 ∧
      (server mif_ready_at_2 3).trace.indexOf
        (.mg_http_listen "http://0.0.0.0:80" (mif_ready_at_2 2)) = 9 ∧
      ¬ ((server mif_ready_at_2 3).trace.indexOf
            (.mg_http_listen "http://0.0.0.0:80" (mif_ready_at_2 2)) <
          (server mif_ready_at_2 3).trace.indexOf (.mg_timer_add 1000)) := by
  have h : (server mif_ready_at_2 3).trace =
      [.mg_mgr_init, .mg_log_set, .ethernet_init, .mg_tcpip_init, .mg_timer_add 1000,
       .MG_INFO "MAC: %M. Waiting for IP...", .mg_mgr_poll 0, .mg_mgr_poll 0,
       .MG_INFO "Initialising application...",
       .mg_http_listen "http://0.0.0.0:80" (mif_ready_at_2 2),
       .MG_INFO "Starting event loop", .mg_mgr_poll 1] := by
    decide
  rw [h]
  refine ⟨rfl, ?_, ?_, ?_, ?_⟩ <;> decide

/-- C8, amended: `server` makes its calls in this order: `mg_mgr_init`, `mg_log_set`,
`ethernet_init`, `mg_tcpip_init`, the single `mg_timer_add` (period 1000 ms), then the polls of
the readiness loop (timeout 0), then, once a check finds the interface Ready, `mg_http_listen`
and the polls of the event loop (timeout 1). The timer is registered right after
`mg_tcpip_init`, before the readiness loop and before the listener is attached. -/
theorem server_call_order (mif : Nat → mg_tcpip_if) (fuel : Nat) :
    ∃ k rest,
      (server mif fuel).trace =
        [.mg_mgr_init, .mg_log_set, .ethernet_init, .mg_tcpip_init, .mg_timer_add 1000,
         .MG_INFO "MAC: %M. Waiting for IP..."] ++
          List.replicate k (lib_call.mg_mgr_poll 0) ++ rest ∧
      (∀ ms, lib_call.mg_timer_add ms ∉ List.replicate k (lib_call.mg_mgr_poll 0) ++ rest) ∧
      (∀ j, j < k → (mif j).state ≠ .ready) ∧
      ((k = fuel ∧ (mif k).state ≠ .ready ∧ rest = []) ∨
        (k ≤ fuel ∧ (mif k).state = .ready ∧
          rest = [.MG_INFO "Initialising application...",
                  .mg_http_listen "http://0.0.0.0:80" (mif k),
                  .MG_INFO "Starting event loop"] ++
                 List.replicate (fuel - k) (lib_call.mg_mgr_poll 1))) := by
  rcases server_cases mif fuel with ⟨k, hk, hr, hfirst, _, htr⟩ | ⟨hall, _, htr⟩
  · refine ⟨k, _, ?_, ?_, hfirst, Or.inr ⟨hk, hr, rfl⟩⟩
    · rw [htr, server_start_eq]
      simp
    · intro ms
      simp [List.mem_replicate]
  · refine ⟨fuel, [], ?_, ?_, ?_, Or.inl ⟨rfl, hall fuel (le_refl _), rfl⟩⟩
    · rw [htr, server_start_eq]
      simp
    · intro ms
      simp [List.mem_replicate]
    · intro j hj
      exact hall j (by omega)

/-! ## `mg_random` -/

/-- One iteration when `n + 4` does not wrap: the counter advances by 4 and `min 4 (len - n)`
bytes are copied. -/
theorem mg_random_body_eq (w : Nat) (rng : Nat → Nat) (len : Nat) (s : random_state)
    (hlen : len + 3 < 2 ^ w) (hn : s.n < len) :
    mg_random_body w rng len s =
      { n := s.n + 4
        mem := memcpy s.mem s.n (byte_of (rng s.calls)) (min 4 (len - s.n))
        calls := s.calls + 1
        writes := s.writes ++ [(s.n, min 4 (len - s.n))] } := by
  have h1 : (s.n + 4) % 2 ^ w = s.n + 4 := Nat.mod_eq_of_lt (by omega)
  have h2 : (len + 2 ^ w - s.n) % 2 ^ w = len - s.n := by
    have e : len + 2 ^ w - s.n = (len - s.n) + 2 ^ w := by omega
    rw [e, Nat.add_mod_right]
    exact Nat.mod_eq_of_lt (by omega)
  have h3 : (if s.n + 4 > len then len - s.n else 4) = min 4 (len - s.n) := by
    split_ifs <;> omega
  simp only [mg_random_body, h1, h2, h3]

/-- Once the loop has returned within a bound, it returns the same state within any larger
bound. -/
theorem mg_random_loop_mono (w : Nat) (rng : Nat → Nat) (len : Nat) :
    ∀ (fuel : Nat) (s t : random_state), mg_random_loop w rng len fuel s = .returned t →
      ∀ fuel2, fuel ≤ fuel2 → mg_random_loop w rng len fuel2 s = .returned t := by
  intro fuel
  induction fuel with
  | zero =>
    intro s t h fuel2 _
    by_cases hc : s.n < len
    · simp [mg_random_loop, hc] at h
    · cases fuel2 with
      | zero => exact h
      | succ f =>
        simp only [mg_random_loop, hc, if_false] at h ⊢
        exact h
  | succ fuel ih =>
    intro s t h fuel2 hle
    obtain ⟨f, rfl⟩ : ∃ f, fuel2 = f + 1 := ⟨fuel2 - 1, by omega⟩
    by_cases hc : s.n < len
    · simp only [mg_random_loop, hc, if_true] at h ⊢
      exact ih _ t h f (by omega)
    · simp only [mg_random_loop, hc, if_false] at h ⊢
      exact h

/-- The loop invariant of `mg_random` when `len + 3` is representable: from a state with
`n = 4 * calls` the loop returns within `(len + 3 - n) / 4` iterations, having read
`(len + 3) / 4` words in all, filled the bytes from `n` to `len` and touched nothing else;
every `memcpy` it makes stays below `len`. -/
theorem mg_random_loop_spec (w : Nat) (rng : Nat → Nat) (len : Nat) (hlen : len + 3 < 2 ^ w) :
    ∀ (fuel : Nat) (s : random_state), s.n = 4 * s.calls → s.n ≤ len + 3 →
      (len + 3 - s.n) / 4 ≤ fuel →
      ∃ t, mg_random_loop w rng len fuel s = .returned t ∧ t.calls = (len + 3) / 4 ∧
        (∀ a, a < s.n ∨ len ≤ a → t.mem a = s.mem a) ∧
        (∀ a, s.n ≤ a → a < len → t.mem a = byte_of (rng (a / 4)) (a % 4)) ∧
        (∀ p, p ∈ t.writes → p ∈ s.writes ∨ (0 < p.2 ∧ p.1 + p.2 ≤ len)) ∧
        (len ≤ s.n → t = s) := by
  intro fuel
  induction fuel with
  | zero =>
    intro s hn hle hf
    have hc : ¬ s.n < len := by omega
    refine ⟨s, by simp [mg_random_loop, hc], by omega, fun _ _ => rfl, ?_, ?_, fun _ => rfl⟩
    · intro a h1 h2
      omega
    · intro p hp
      exact Or.inl hp
  | succ fuel ih =>
    intro s hn hle hf
    by_cases hc : s.n < len
    · have hb := mg_random_body_eq w rng len s hlen hc
      obtain ⟨t, ht, hcalls, hkeep, hfill, hwr, _⟩ :=
        ih (mg_random_body w rng len s) (by rw [hb]; simp only; omega)
          (by rw [hb]; simp only; omega) (by rw [hb]; simp only; omega)
      refine ⟨t, by simp only [mg_random_loop, hc, if_true]; exact ht, hcalls, ?_, ?_, ?_, ?_⟩
      · intro a ha
        rw [hkeep a (by rw [hb]; simp only; omega), hb]
        simp only [memcpy]
        rw [if_neg]
        omega
      · intro a h1 h2
        by_cases h3 : a < s.n + 4
        · rw [hkeep a (by rw [hb]; simp only; omega), hb]
          simp only [memcpy]
          rw [if_pos (by omega)]
          have e1 : a / 4 = s.calls := by omega
          have e2 : a % 4 = a - s.n := by omega
          rw [e1, e2]
        · exact hfill a (by rw [hb]; simp only; omega) h2
      · intro p hp
        rcases hwr p hp with h | h
        · rw [hb] at h
          simp only [List.mem_append, List.mem_singleton] at h
          rcases h with h | h
          · exact Or.inl h
          · right
            subst h
            simp only
            omega
        · exact Or.inr h
      · intro h
        omega
    · refine ⟨s, by simp [mg_random_loop, hc], by omega, fun _ _ => rfl, ?_, ?_, fun _ => rfl⟩
      · intro a h1 h2
        omega
      · intro p hp
        exact Or.inl hp

/-- C5: for every memory at `buf`, every `len` with `len + 3` representable in `size_t` and
every sequence `rng` of words returned by the successive `rng_read` calls, `mg_random(buf, len)`
returns, after exactly `(len + 3) / 4` (that is, ceil(len / 4)) calls of `rng_read`; then byte
`i < len` of the buffer is byte `i mod 4`, in memory order, of word `i div 4`, and every byte at
an offset `>= len` is unchanged; for `len = 0` no word is read and nothing is written. -/
theorem mg_random_fills (w : Nat) (rng : Nat → Nat) (mem : Nat → Nat) (len : Nat)
    (hlen : len + 3 < 2 ^ w) :
    ∃ t : random_state,
      (∀ fuel, (len + 3) / 4 ≤ fuel → mg_random w rng mem len fuel = .returned t) ∧
      t.calls = (len + 3) / 4 ∧
      (∀ i, i < len → t.mem i = byte_of (rng (i / 4)) (i % 4)) ∧
      (∀ i, len ≤ i → t.mem i = mem i) ∧
      (len = 0 → t.calls = 0 ∧ t.writes = [] ∧ t.mem = mem) := by
  obtain ⟨t, ht, hcalls, hkeep, hfill, _, hzero⟩ :=
    mg_random_loop_spec w rng len hlen ((len + 3) / 4)
      { n := 0, mem := mem, calls := 0, writes := [] } rfl (Nat.zero_le _) (le_refl _)
  refine ⟨t, ?_, hcalls, ?_, ?_, ?_⟩
  · intro fuel hf
    exact mg_random_loop_mono w rng len _ _ t ht fuel hf
  · intro i hi
    exact hfill i (Nat.zero_le _) hi
  · intro i hi
    exact hkeep i (Or.inr hi)
  · intro h0
    have := hzero (by simp only; omega)
    subst this
    exact ⟨rfl, rfl, rfl⟩

/-- C5 at a concrete input: 6 bytes on a 32-bit `size_t`. -/
theorem mg_random_fills_witness :
    6 + 3 < 2 ^ 32 ∧
    ∃ t : random_state,
      (∀ fuel, (6 + 3) / 4 ≤ fuel →
        mg_random 32 rng_example mem_example 6 fuel = .returned t) ∧
      t.calls = (6 + 3) / 4 ∧
      (∀ i, i < 6 → t.mem i = byte_of (rng_example (i / 4)) (i % 4)) ∧
      (∀ i, 6 ≤ i → t.mem i = mem_example i) ∧
      ((6 : Nat) = 0 → t.calls = 0 ∧ t.writes = [] ∧ t.mem = mem_example) :=
  ⟨by decide, mg_random_fills 32 rng_example mem_example 6 (by decide)⟩

/-- A run of `mg_random(buf, 6)`: two words are read, the second copy is cut to 2 bytes, bytes
6 and 7 keep their value. -/
theorem mg_random_run_6 :
    observed 8 (mg_random 32 rng_example mem_example 6 5) =
      (true, 2, [1, 2, 3, 4, 5, 6, 255, 255], [(0, 4), (4, 2)]) := by
  decide

/-- On a 4-bit `size_t` the same run can be followed step by step: with `len = 15` the fourth
copy is of 4 bytes at offset 12 and overwrites the byte at offset 15, and after 4 and after 8
iterations the counter is 0 again with the loop still running. -/
theorem mg_random_wraps_small :
    observed 17 (mg_random 4 rng_example mem_example 15 4) =
        (false, 4, [1, 2, 3, 4, 5, 6, 7, 8, 5, 6, 7, 8, 5, 6, 7, 8, 255],
          [(0, 4), (4, 4), (8, 4), (12, 4)]) ∧
      (observed 0 (mg_random 4 rng_example mem_example 15 8)).1 = false := by
  decide

end Rt1020
